import Mathlib

set_option maxHeartbeats 1000000

/-! Verification of the RevoSDK runtime bootstrap core: the arena boundary
store declared in src/include/RevoSDK/OS/OSArena.h, the console-type
constants of src/include/RevoSDK/gx.h, and the OSInit bring-up sequence
whose initializers gx.h declares. -/

/-- The arena boundary store: the two fence addresses lo and hi.
The repository declares the four accessors in OSArena.h; the spec (section 3)
describes the state as two addresses delimiting the unreserved region. -/
structure OSArena where
  lo : Nat
  hi : Nat
  deriving DecidableEq

/-- Modelled from the spec: the body of OSGetArenaLo is not under src
(OSArena.h only declares it). Spec section 4.1: a pure read of the current
lo fence, never failing. -/
def OSGetArenaLo (s : OSArena) : Nat := s.lo

/-- Modelled from the spec: the body of OSGetArenaHi is not under src
(OSArena.h only declares it). Spec section 4.1: a pure read of the current
hi fence, never failing. -/
def OSGetArenaHi (s : OSArena) : Nat := s.hi

/-- Modelled from the spec: the body of OSSetArenaLo is not under src
(OSArena.h only declares it). Spec section 4.1: an unconditional write of
the lo fence; the store performs no validation. -/
def OSSetArenaLo (addr : Nat) (s : OSArena) : OSArena := { s with lo := addr }

/-- Modelled from the spec: the body of OSSetArenaHi is not under src
(OSArena.h only declares it). Spec section 4.1: an unconditional write of
the hi fence; the store performs no validation. -/
def OSSetArenaHi (addr : Nat) (s : OSArena) : OSArena := { s with hi := addr }

/-- One call into the arena boundary store. -/
inductive ArenaCall where
  | setLo (addr : Nat)
  | setHi (addr : Nat)
  deriving DecidableEq

/-- Execute one arena call on a store state. -/
def applyCall (c : ArenaCall) (s : OSArena) : OSArena :=
  match c with
  | ArenaCall.setLo a => OSSetArenaLo a s
  | ArenaCall.setHi a => OSSetArenaHi a s

/-- Execute a sequence of arena calls, first call first. -/
def applyCalls : List ArenaCall → OSArena → OSArena
  | [], s => s
  | c :: cs, s => applyCalls cs (applyCall c s)

/-- The argument of the last setLo call of the sequence, if any. -/
def lastSetLo : List ArenaCall → Option Nat
  | [] => none
  | c :: cs =>
    match lastSetLo cs with
    | some a => some a
    | none =>
      match c with
      | ArenaCall.setLo a => some a
      | ArenaCall.setHi _ => none

/-- The argument of the last setHi call of the sequence, if any. -/
def lastSetHi : List ArenaCall → Option Nat
  | [] => none
  | c :: cs =>
    match lastSetHi cs with
    | some a => some a
    | none =>
      match c with
      | ArenaCall.setHi a => some a
      | ArenaCall.setLo _ => none

/-- A call sequence in which every write respects the opposite fence at the
time of the call: setLo arguments stay at or below the current hi, setHi
arguments stay at or above the current lo. -/
def validCalls : OSArena → List ArenaCall → Bool
  | _, [] => true
  | s, c :: cs =>
    (match c with
     | ArenaCall.setLo a => decide (a ≤ s.hi)
     | ArenaCall.setHi a => decide (s.lo ≤ a)) && validCalls (applyCall c s) cs

/-- Initial fences of the reservation scenario in spec section 8. -/
def arenaInit : OSArena := { lo := 0x8000, hi := 0x817FFFFF }

/-- Console-type constant from gx.h. -/
def OS_CONSOLE_RETAIL4 : Nat := 0x00000004

/-- Console-type constant from gx.h. -/
def OS_CONSOLE_RETAIL3 : Nat := 0x00000003

/-- Console-type constant from gx.h. -/
def OS_CONSOLE_RETAIL2 : Nat := 0x00000002

/-- Console-type constant from gx.h. -/
def OS_CONSOLE_RETAIL1 : Nat := 0x00000001

/-- Console-type constant from gx.h. -/
def OS_CONSOLE_RETAIL : Nat := 0x00000000

/-- Console-type constant from gx.h. -/
def OS_CONSOLE_DEVHW4 : Nat := 0x10000007

/-- Console-type constant from gx.h. -/
def OS_CONSOLE_DEVHW3 : Nat := 0x10000006

/-- Console-type constant from gx.h. -/
def OS_CONSOLE_DEVHW2 : Nat := 0x10000005

/-- Console-type constant from gx.h. -/
def OS_CONSOLE_DEVHW1 : Nat := 0x10000004

/-- Console-type constant from gx.h. -/
def OS_CONSOLE_MINNOW : Nat := 0x10000003

/-- Console-type constant from gx.h. -/
def OS_CONSOLE_ARTHUR : Nat := 0x10000002

/-- Console-type constant from gx.h. -/
def OS_CONSOLE_PC_EMULATOR : Nat := 0x10000001

/-- Console-type constant from gx.h. -/
def OS_CONSOLE_EMULATOR : Nat := 0x10000000

/-- Console-type constant from gx.h. -/
def OS_CONSOLE_DEVELOPMENT : Nat := 0x10000000

/-- Console-type constant from gx.h. -/
def OS_CONSOLE_DEVKIT : Nat := 0x10000000

/-- Console-type constant from gx.h. -/
def OS_CONSOLE_TDEVKIT : Nat := 0x20000000

/-- The closed list of named console-type codes declared in gx.h, one entry
per named constant, in declaration order. -/
def consoleTypeCodes : List Nat :=
  [OS_CONSOLE_RETAIL4, OS_CONSOLE_RETAIL3, OS_CONSOLE_RETAIL2,
   OS_CONSOLE_RETAIL1, OS_CONSOLE_RETAIL, OS_CONSOLE_DEVHW4,
   OS_CONSOLE_DEVHW3, OS_CONSOLE_DEVHW2, OS_CONSOLE_DEVHW1,
   OS_CONSOLE_MINNOW, OS_CONSOLE_ARTHUR, OS_CONSOLE_PC_EMULATOR,
   OS_CONSOLE_EMULATOR, OS_CONSOLE_DEVELOPMENT, OS_CONSOLE_DEVKIT,
   OS_CONSOLE_TDEVKIT]

/-- The console classifications named in gx.h, one constructor per named
constant. The spec (section 4.2) calls this the closed enumerated
classification space fixed at detection time. -/
inductive ConsoleType where
  | retail | retail1 | retail2 | retail3 | retail4
  | devhw1 | devhw2 | devhw3 | devhw4
  | minnow | arthur | pcEmulator | emulator | development | devkit | tdevkit
  deriving DecidableEq

/-- The numeric code of each named classification, per the constants of
gx.h. -/
def consoleTypeCode : ConsoleType → Nat
  | ConsoleType.retail => OS_CONSOLE_RETAIL
  | ConsoleType.retail1 => OS_CONSOLE_RETAIL1
  | ConsoleType.retail2 => OS_CONSOLE_RETAIL2
  | ConsoleType.retail3 => OS_CONSOLE_RETAIL3
  | ConsoleType.retail4 => OS_CONSOLE_RETAIL4
  | ConsoleType.devhw1 => OS_CONSOLE_DEVHW1
  | ConsoleType.devhw2 => OS_CONSOLE_DEVHW2
  | ConsoleType.devhw3 => OS_CONSOLE_DEVHW3
  | ConsoleType.devhw4 => OS_CONSOLE_DEVHW4
  | ConsoleType.minnow => OS_CONSOLE_MINNOW
  | ConsoleType.arthur => OS_CONSOLE_ARTHUR
  | ConsoleType.pcEmulator => OS_CONSOLE_PC_EMULATOR
  | ConsoleType.emulator => OS_CONSOLE_EMULATOR
  | ConsoleType.development => OS_CONSOLE_DEVELOPMENT
  | ConsoleType.devkit => OS_CONSOLE_DEVKIT
  | ConsoleType.tdevkit => OS_CONSOLE_TDEVKIT

/-- The subsystem initializers declared in gx.h: one constructor per
initializer named __OSPSInit, __OSFPRInit, __OSCacheInit, __OSContextInit,
__OSInterruptInit, __OSInitSystemCall, __OSModuleInit, __OSInitAudioSystem
and __OSInitMemoryProtection. -/
inductive BootStep where
  | psInit
  | fprInit
  | cacheInit
  | contextInit
  | interruptInit
  | initSystemCall
  | moduleInit
  | initAudioSystem
  | initMemoryProtection
  deriving DecidableEq

/-- Modelled from the spec: the body of OSInit is not under src (gx.h only
declares it and its subsystem initializers). Spec section 4.3 fixes the
initialization order, with step 1 (floating-point/processor-state init)
comprising __OSPSInit then __OSFPRInit as gx.h declares them. -/
def bootSequence : List BootStep :=
  [BootStep.psInit, BootStep.fprInit, BootStep.cacheInit,
   BootStep.contextInit, BootStep.interruptInit, BootStep.initSystemCall,
   BootStep.moduleInit, BootStep.initAudioSystem,
   BootStep.initMemoryProtection]

/-- Run the steps of a list in order; a step completes when the environment
oracle accepts it, and a failing step halts the run (spec section 4.3:
every failure is fatal, no later step runs). Returns the completed steps in
execution order, and whether the whole list completed. -/
def execSteps (ok : BootStep → Bool) : List BootStep → List BootStep × Bool
  | [] => ([], true)
  | st :: rest =>
    if ok st then
      let r := execSteps ok rest
      (st :: r.1, r.2)
    else ([], false)

/-- Observable BootSequencer state per spec section 3: the trace of
completed initializers, the initialized flag, the captured start time and
the detected console classification. -/
structure OSState where
  executed : List BootStep
  initialized : Bool
  startTime : Nat
  consoleType : ConsoleType
  deriving DecidableEq

/-- The environment of a boot attempt: which initializer completes, the
time captured at boot, and the console identity the hardware detection
reports. -/
structure BootEnv where
  ok : BootStep → Bool
  time : Nat
  console : ConsoleType

/-- Modelled from the spec: the body of OSInit is not under src (gx.h only
declares it). Spec section 4.3: guarded by the initialized flag; runs the
fixed sequence; on success records the start time, the console identity and
initialized; on a failing step it halts with initialized still false. -/
def OSInit (env : BootEnv) (s : OSState) : OSState :=
  if s.initialized then s
  else
    let r := execSteps env.ok bootSequence
    if r.2 then
      { executed := r.1, initialized := true, startTime := env.time,
        consoleType := env.console }
    else
      { s with executed := r.1 }

/-- Modelled from the spec: the body of OSGetConsoleType is not under src
(gx.h only declares it). Spec section 4.2: returns the stable
classification code fixed at detection time, an element of the closed
enumerated set. -/
def OSGetConsoleType (s : OSState) : Nat := consoleTypeCode s.consoleType

/-- The pre-boot state: nothing executed, not initialized. -/
def initOSState : OSState :=
  { executed := [], initialized := false, startTime := 0,
    consoleType := ConsoleType.retail }

/-- An environment in which every initializer completes. -/
def allOkEnv : BootEnv :=
  { ok := fun _ => true, time := 7, console := ConsoleType.retail }

/-- An environment in which interrupt initialization fails and every other
initializer completes. -/
def failEnv : BootEnv :=
  { ok := fun st => decide (st ≠ BootStep.interruptInit), time := 0,
    console := ConsoleType.retail }

theorem applyCalls_eq (cs : List ArenaCall) :
    ∀ s : OSArena, applyCalls cs s =
      { lo := (lastSetLo cs).getD s.lo, hi := (lastSetHi cs).getD s.hi } := by
  induction cs with
  | nil => intro s; rfl
  | cons c cs ih =>
    intro s
    cases c with
    | setLo a =>
      rw [applyCalls, ih]
      cases h1 : lastSetLo cs <;> cases h2 : lastSetHi cs <;>
        simp [lastSetLo, lastSetHi, h1, h2, applyCall, OSSetArenaLo]
    | setHi a =>
      rw [applyCalls, ih]
      cases h1 : lastSetLo cs <;> cases h2 : lastSetHi cs <;>
        simp [lastSetLo, lastSetHi, h1, h2, applyCall, OSSetArenaHi]

/-- C2: for every sequence of setArenaLo/setArenaHi calls, OSGetArenaLo
returns exactly the last value passed to OSSetArenaLo (the prior lo when
none was passed), OSGetArenaHi the last value passed to OSSetArenaHi; from
the initial fences lo = 0x8000, hi = 0x817FFFFF, after
OSSetArenaLo (0x8000 + 0x1000) the reads return 0x9000 and 0x817FFFFF. -/
theorem arena_last_write_wins (cs : List ArenaCall) (s : OSArena) :
    OSGetArenaLo (applyCalls cs s) = (lastSetLo cs).getD (OSGetArenaLo s) ∧
    OSGetArenaHi (applyCalls cs s) = (lastSetHi cs).getD (OSGetArenaHi s) ∧
    OSGetArenaLo (applyCalls [ArenaCall.setLo (0x8000 + 0x1000)] arenaInit)
      = 0x9000 ∧
    OSGetArenaHi (applyCalls [ArenaCall.setLo (0x8000 + 0x1000)] arenaInit)
      = 0x817FFFFF := by
  refine ⟨?_, ?_, by decide, by decide⟩ <;>
    simp [applyCalls_eq, OSGetArenaLo, OSGetArenaHi]

/-- C3: OSSetArenaLo changes only the lo fence and leaves hi unchanged;
OSSetArenaHi changes only the hi fence and leaves lo unchanged. -/
theorem arena_set_frame (s : OSArena) (x : Nat) :
    (OSSetArenaLo x s).hi = s.hi ∧ (OSSetArenaLo x s).lo = x ∧
    (OSSetArenaHi x s).lo = s.lo ∧ (OSSetArenaHi x s).hi = x := by
  refine ⟨rfl, rfl, rfl, rfl⟩

/-- C4 counterexample: from the initial fences, the single call
OSSetArenaLo 0x81800000 reaches a state with lo above hi, so not every
state reachable by setArenaLo/setArenaHi calls satisfies lo <= hi. -/
theorem arena_invariant_counterexample :
    ¬ ((applyCalls [ArenaCall.setLo 0x81800000] arenaInit).lo ≤
       (applyCalls [ArenaCall.setLo 0x81800000] arenaInit).hi) := by
  decide

/-- C4 amended: the invariant lo <= hi is preserved by every sequence of
setArenaLo/setArenaHi calls in which each write respects the opposite
fence at the time of the call (each setArenaLo argument at most the
current hi, each setArenaHi argument at least the current lo); the store
itself checks nothing. -/
theorem arena_invariant_preserved_valid (cs : List ArenaCall) :
    ∀ s : OSArena, s.lo ≤ s.hi → validCalls s cs = true →
      (applyCalls cs s).lo ≤ (applyCalls cs s).hi := by
  induction cs with
  | nil => intro s h _; exact h
  | cons c cs ih =>
    intro s h hv
    simp only [validCalls, Bool.and_eq_true] at hv
    cases c with
    | setLo a =>
      refine ih (applyCall (ArenaCall.setLo a) s) ?_ hv.2
      have ha : a ≤ s.hi := by
        have := hv.1
        simpa using this
      simpa [applyCall, OSSetArenaLo] using ha
    | setHi a =>
      refine ih (applyCall (ArenaCall.setHi a) s) ?_ hv.2
      have ha : s.lo ≤ a := by
        have := hv.1
        simpa using this
      simpa [applyCall, OSSetArenaHi] using ha

/-- Witness for the amended C4 at a concrete input. -/
theorem arena_invariant_preserved_valid_witness :
    (applyCalls [ArenaCall.setLo 0x9000, ArenaCall.setHi 0x10000]
        arenaInit).lo ≤
      (applyCalls [ArenaCall.setLo 0x9000, ArenaCall.setHi 0x10000]
        arenaInit).hi :=
  arena_invariant_preserved_valid
    [ArenaCall.setLo 0x9000, ArenaCall.setHi 0x10000] arenaInit
    (by decide) (by decide)

/-- C5: the setters are unconditional total writes that take effect for
every argument with no validation (a write that puts lo above hi still
succeeds and lands), and the getters are pure reads of the fences. -/
theorem arena_set_unconditional (s : OSArena) (a : Nat) :
    OSSetArenaLo a s = { lo := a, hi := s.hi } ∧
    OSSetArenaHi a s = { lo := s.lo, hi := a } ∧
    OSGetArenaLo s = s.lo ∧ OSGetArenaHi s = s.hi ∧
    (OSSetArenaLo (s.hi + 1) s).hi < (OSSetArenaLo (s.hi + 1) s).lo := by
  refine ⟨rfl, rfl, rfl, rfl, Nat.lt_succ_self s.hi⟩

theorem execSteps_halts_at (ok : BootStep → Bool) (st : BootStep)
    (h : ok st = false) :
    ∀ l1 l2 : List BootStep,
      (execSteps ok (l1 ++ st :: l2)).1 ⊆ l1 ∧
      (execSteps ok (l1 ++ st :: l2)).2 = false := by
  intro l1
  induction l1 with
  | nil => intro l2; simp [execSteps, h]
  | cons a t ih =>
    intro l2
    by_cases ha : ok a
    · simp only [List.cons_append, execSteps, ha, if_true]
      exact ⟨List.cons_subset_cons a (ih l2).1, (ih l2).2⟩
    · simp only [List.cons_append, execSteps, Bool.not_eq_true] at ha ⊢
      simp [ha]

/-- C1: the boot sequence runs its initializers in the fixed order
floating-point/processor state, cache, context, interrupts, system-call
dispatch, module loader, audio, memory protection; memory protection is
last, every earlier step comes before every later one, and a fully
successful OSInit run executes exactly this sequence in this order. -/
theorem OSInit_boot_order :
    bootSequence.indexOf BootStep.psInit
      < bootSequence.indexOf BootStep.cacheInit ∧
    bootSequence.indexOf BootStep.fprInit
      < bootSequence.indexOf BootStep.cacheInit ∧
    bootSequence.indexOf BootStep.cacheInit
      < bootSequence.indexOf BootStep.contextInit ∧
    bootSequence.indexOf BootStep.contextInit
      < bootSequence.indexOf BootStep.interruptInit ∧
    bootSequence.indexOf BootStep.interruptInit
      < bootSequence.indexOf BootStep.initSystemCall ∧
    bootSequence.indexOf BootStep.initSystemCall
      < bootSequence.indexOf BootStep.moduleInit ∧
    bootSequence.indexOf BootStep.moduleInit
      < bootSequence.indexOf BootStep.initAudioSystem ∧
    bootSequence.indexOf BootStep.initAudioSystem
      < bootSequence.indexOf BootStep.initMemoryProtection ∧
    bootSequence.getLast? = some BootStep.initMemoryProtection ∧
    bootSequence.Nodup ∧
    (OSInit allOkEnv initOSState).executed = bootSequence := by
  decide

/-- C6: calling OSInit twice yields the same observable state as calling
it once; the second call is guarded by the initialized flag (and after a
failed first attempt it deterministically recomputes the same state), so
initialized, startTime and the console type are unchanged. -/
theorem OSInit_idempotent (env : BootEnv) (s : OSState) :
    OSInit env (OSInit env s) = OSInit env s := by
  by_cases h : s.initialized
  · simp [OSInit, h]
  · rcases hr : execSteps env.ok bootSequence with ⟨tr, succ⟩
    cases succ
    · simp [OSInit, h, hr]
    · simp [OSInit, h, hr]

/-- C7: when interrupt initialization (step 4) fails, OSInit from an
uninitialized state leaves initialized false and never executes the
system-call, module-loader, audio or memory-protection steps. -/
theorem OSInit_halts_on_interrupt_failure (env : BootEnv) (s : OSState)
    (hfail : env.ok BootStep.interruptInit = false)
    (hinit : s.initialized = false) :
    (OSInit env s).initialized = false ∧
    BootStep.initSystemCall ∉ (OSInit env s).executed ∧
    BootStep.moduleInit ∉ (OSInit env s).executed ∧
    BootStep.initAudioSystem ∉ (OSInit env s).executed ∧
    BootStep.initMemoryProtection ∉ (OSInit env s).executed := by
  have hseq : bootSequence =
      [BootStep.psInit, BootStep.fprInit, BootStep.cacheInit,
       BootStep.contextInit] ++ BootStep.interruptInit ::
        [BootStep.initSystemCall, BootStep.moduleInit,
         BootStep.initAudioSystem, BootStep.initMemoryProtection] := rfl
  obtain ⟨hsub, hsucc⟩ :=
    execSteps_halts_at env.ok BootStep.interruptInit hfail
      [BootStep.psInit, BootStep.fprInit, BootStep.cacheInit,
       BootStep.contextInit]
      [BootStep.initSystemCall, BootStep.moduleInit,
       BootStep.initAudioSystem, BootStep.initMemoryProtection]
  rw [← hseq] at hsub hsucc
  have hres : OSInit env s =
      { s with executed := (execSteps env.ok bootSequence).1 } := by
    simp [OSInit, hinit, hsucc]
  rw [hres]
  refine ⟨hinit, ?_, ?_, ?_, ?_⟩ <;>
    · intro hmem
      have := hsub hmem
      simp at this

/-- Witness for C7: with an environment failing exactly at interrupt
initialization, booting from the pre-boot state leaves initialized false
and runs none of the later steps. -/
theorem OSInit_halts_on_interrupt_failure_witness :
    (OSInit failEnv initOSState).initialized = false ∧
    BootStep.initSystemCall ∉ (OSInit failEnv initOSState).executed ∧
    BootStep.moduleInit ∉ (OSInit failEnv initOSState).executed ∧
    BootStep.initAudioSystem ∉ (OSInit failEnv initOSState).executed ∧
    BootStep.initMemoryProtection ∉ (OSInit failEnv initOSState).executed :=
  OSInit_halts_on_interrupt_failure failEnv initOSState (by decide) rfl

/-- C8: OSGetConsoleType always returns a code drawn from the closed
enumerated set of named console-type constants of gx.h. -/
theorem OSGetConsoleType_closed_set (s : OSState) :
    OSGetConsoleType s ∈ consoleTypeCodes := by
  rw [OSGetConsoleType]
  cases s.consoleType <;> decide

/-- C9: the named console-type constants are not pairwise distinct:
OS_CONSOLE_EMULATOR, OS_CONSOLE_DEVELOPMENT and OS_CONSOLE_DEVKIT all
equal 0x10000000, so the three classifications map to one code and a
result of 0x10000000 cannot distinguish them. -/
theorem console_constants_collide :
    OS_CONSOLE_EMULATOR = 0x10000000 ∧
    OS_CONSOLE_DEVELOPMENT = 0x10000000 ∧
    OS_CONSOLE_DEVKIT = 0x10000000 ∧
    OS_CONSOLE_EMULATOR = OS_CONSOLE_DEVELOPMENT ∧
    OS_CONSOLE_DEVELOPMENT = OS_CONSOLE_DEVKIT ∧
    consoleTypeCode ConsoleType.emulator
      = consoleTypeCode ConsoleType.development ∧
    consoleTypeCode ConsoleType.development
      = consoleTypeCode ConsoleType.devkit ∧
    ¬ consoleTypeCodes.Nodup := by
  decide

/-- C10: step 1 of boot comprises the two distinct initializers __OSPSInit
then __OSFPRInit, and both come before cache initialization in the boot
sequence. -/
theorem ps_fpr_before_cache :
    BootStep.psInit ≠ BootStep.fprInit ∧
    BootStep.psInit ∈ bootSequence ∧
    BootStep.fprInit ∈ bootSequence ∧
    bootSequence.indexOf BootStep.psInit
      < bootSequence.indexOf BootStep.fprInit ∧
    bootSequence.indexOf BootStep.fprInit
      < bootSequence.indexOf BootStep.cacheInit := by
  decide
